import Mathlib

/-!
Shallow embedding of the core of `fcm_worker` (Listener Pool, FCM Worker,
Webhook Sender, Dedup Cache, Message Log retention), translated from the
Rust sources under `src/`, together with theorems settling the spec claims.
-/

namespace FcmWorkerSpec

/-! ## Webhook Sender (`src/workers/webhook.rs`, `WebhookClient::send`) -/

/-- Outcome of one `send_once` HTTP attempt: either an HTTP response with a
status and a body (`Ok((status, body))`), or a transport error
(`Err(reqwest::Error)`) carrying an error message. -/
inductive AttemptOutcome where
  | httpResp (status : Nat) (body : String)
  | transportErr (msg : String)
deriving DecidableEq, Repr

/-- `WebhookClient { max_retries: 3, base_delay_ms: 1000 }`. -/
def MAX_RETRIES : Nat := 3

def BASE_DELAY_MS : Nat := 1000

/-- Observable trace of one `WebhookClient::send` call:
the number of `send_once` attempts performed, the backoff sleeps (ms, in
order), the `update_message_webhook_status(log_id, status, response)` calls
made (in order), the final in-memory `log.webhook_status`, and the value
returned to the caller (`AppResult<()>`, error text if any). -/
structure SendResult where
  attempts : Nat
  sleeps : List Nat
  updates : List (Nat × String)
  finalStatus : Option Nat
  returned : Except String Unit
deriving Repr

/-- The body of the `while attempt <= self.max_retries` loop in
`WebhookClient::send`, plus the give-up epilogue.  `outcome k` is what
`send_once` returns on the attempt with `attempt == k`; `updFails k` is
whether the `repo.update_message_webhook_status` call issued right after
attempt `k` fails (such a failure is only logged).  `fuel` counts the
remaining loop iterations (`MAX_RETRIES + 1 - attempt` at the top level), and
`lastError` mirrors the `last_error` local. -/
def sendAux (outcome : Nat → AttemptOutcome) (updFails : Nat → Bool)
    (attempt fuel : Nat) (lastError : String) : SendResult :=
  match fuel with
  | 0 =>
      let finalError := "All 3 retries failed. Last error: " ++ lastError
      { attempts := 0
        sleeps := []
        updates := [(0, finalError)]
        finalStatus := some 0
        returned := Except.ok () }
  | fuel' + 1 =>
      let preSleeps : List Nat :=
        if attempt > 0 then [BASE_DELAY_MS * 2 ^ (attempt - 1)] else []
      match outcome attempt with
      | AttemptOutcome.httpResp status body =>
          if 200 ≤ status ∧ status < 300 then
            { attempts := 1
              sleeps := preSleeps
              updates := [(status, body)]
              finalStatus := some status
              returned := Except.ok () }
          else
            let rest := sendAux outcome updFails (attempt + 1) fuel'
              ("HTTP " ++ toString status ++ ": " ++ body)
            { attempts := 1 + rest.attempts
              sleeps := preSleeps ++ rest.sleeps
              updates := (status, body) :: rest.updates
              finalStatus := rest.finalStatus
              returned := rest.returned }
      | AttemptOutcome.transportErr msg =>
          let rest := sendAux outcome updFails (attempt + 1) fuel' msg
          { attempts := 1 + rest.attempts
            sleeps := preSleeps ++ rest.sleeps
            updates := rest.updates
            finalStatus := rest.finalStatus
            returned := rest.returned }

/-- `WebhookClient::send`: run the retry loop from `attempt = 0` with
`last_error = ""`. -/
def webhookSend (outcome : Nat → AttemptOutcome) (updFails : Nat → Bool) :
    SendResult :=
  sendAux outcome updFails 0 (MAX_RETRIES + 1) ""

/-- The text recorded into `last_error` by a failed attempt:
`format!("HTTP {}: {}", status, response)` for a non-2xx response, the
error's display text for a transport error. -/
def errorText : AttemptOutcome → String
  | AttemptOutcome.httpResp status body =>
      "HTTP " ++ toString status ++ ": " ++ body
  | AttemptOutcome.transportErr msg => msg

/-- The `(status, body)` pairs persisted by the loop for the `n` attempts
starting at attempt index `a`: one update per attempt that yielded an HTTP
response, none for a transport-error attempt. -/
def httpUpdates (outcome : Nat → AttemptOutcome) (a n : Nat) :
    List (Nat × String) :=
  match n with
  | 0 => []
  | n' + 1 =>
      (match outcome a with
        | AttemptOutcome.httpResp status body => [(status, body)]
        | AttemptOutcome.transportErr _ => []) ++
        httpUpdates outcome (a + 1) n'

/-- The value of `last_error` when the loop starting at attempt `a` with
`fuel` remaining iterations and current `last_error = e` exhausts all its
attempts without a success. -/
def lastErrAt (outcome : Nat → AttemptOutcome) (a fuel : Nat) (e : String) :
    String :=
  match fuel with
  | 0 => e
  | fuel' + 1 => errorText (outcome (a + fuel'))

/-- An attempt outcome counts as success iff `200 <= status < 300`. -/
def isSuccessOutcome : AttemptOutcome → Bool
  | AttemptOutcome.httpResp status _ => decide (200 ≤ status ∧ status < 300)
  | AttemptOutcome.transportErr _ => false

/-- Index of the first successful attempt among attempts `0..=MAX_RETRIES`,
if any. -/
def firstSuccess (outcome : Nat → AttemptOutcome) : Option Nat :=
  (List.range (MAX_RETRIES + 1)).find? (fun k => isSuccessOutcome (outcome k))

/-! ## Dedup Cache (`src/workers/dedup.rs`, `DedupCache`) -/

/-- FNV-1a 64-bit step: `hash ^= byte; hash = hash.wrapping_mul(FNV_PRIME)`.
Machine `u64` arithmetic is modelled as `Nat` reduced mod `2 ^ 64`. -/
def fnv1aStep (h b : Nat) : Nat := ((h ^^^ b) * 1099511628211) % 2 ^ 64

/-- `DedupCache::hash_content`: FNV-1a 64-bit over the content bytes, starting
from `FNV_OFFSET = 14695981039346656037`. -/
def hash_content (content : List Nat) : Nat :=
  content.foldl fnv1aStep 14695981039346656037

/-- The `HashMap<u64, Instant>` inside `DedupCache`, as an association list
from hash to insertion instant (monotone time modelled as `Nat` seconds;
keys are unique because insertion replaces). -/
abbrev DedupMap : Type := List (Nat × Nat)

/-- `HashMap::get`: the stored instant for a hash, if present. -/
def dedupLookup (cache : DedupMap) (h : Nat) : Option Nat :=
  (List.find? (fun e => e.1 = h) cache).map (fun e => e.2)

/-- `HashMap::insert(hash, now)`: replaces any existing entry for `hash`. -/
def dedupInsert (cache : DedupMap) (h now : Nat) : DedupMap :=
  (h, now) :: List.filter (fun e => e.1 ≠ h) cache

/-- `HashMap::len`. -/
def dedupLen (cache : DedupMap) : Nat := List.length cache

/-- The write path of `is_duplicate`: if the map holds more than 100 entries,
retain only unexpired ones, then insert `(hash, now)`. -/
def dedupWritePath (cache : DedupMap) (ttl h now : Nat) : DedupMap :=
  let cache1 :=
    if dedupLen cache > 100 then
      List.filter (fun e => now - e.2 < ttl) cache
    else cache
  dedupInsert cache1 h now

/-- `DedupCache::is_duplicate(content)`: read-check for an unexpired entry
(`now.duration_since(t) < ttl`, with `Instant` saturation modelled by `Nat`
subtraction); on hit return `true` leaving the cache untouched; otherwise run
the write path and return `false`.  Returns the flag and the updated map. -/
def is_duplicate (cache : DedupMap) (ttl : Nat) (content : List Nat)
    (now : Nat) : Bool × DedupMap :=
  let h := hash_content content
  match dedupLookup cache h with
  | some t =>
      if now - t < ttl then (true, cache)
      else (false, dedupWritePath cache ttl h now)
  | none => (false, dedupWritePath cache ttl h now)

/-! ## FCM Worker reconnect loop (`src/workers/fcm_worker.rs`, `FcmWorker::run`) -/

/-- Result of one `run_listener` call as seen by the `run` loop, paired with
whether the shutdown signal wins the reconnect-delay race that follows a
failure. -/
inductive ListenOutcome where
  | ok
  | err (shutdownWins : Bool)
deriving DecidableEq, Repr

/-- Why the `run` loop terminated. -/
inductive StopReason where
  | cleanExit
  | maxRetries
  | shutdownStop
  | exhausted
deriving DecidableEq, Repr

/-- `FcmWorker::run` constants: `max_retries = 10`, `base_delay = 5 s`. -/
def WORKER_MAX_RETRIES : Nat := 10

def WORKER_BASE_DELAY_S : Nat := 5

/-- The reconnect delay used when `retry_count = r` (after the increment):
`base_delay * 2u32.pow((retry_count - 1).min(6))`, in seconds. -/
def reconnectDelay (r : Nat) : Nat :=
  WORKER_BASE_DELAY_S * 2 ^ min (r - 1) 6

/-- Trace of the `run` loop: number of `run_listener` attempts, the reconnect
delays slept (or raced against shutdown), and why the loop stopped. -/
structure RunTrace where
  attempts : Nat
  delays : List Nat
  reason : StopReason
deriving DecidableEq, Repr

/-- The `loop` in `FcmWorker::run`, from current `retry_count = retry`.
`outcomes` feeds the successive `run_listener` results.  On `Ok` the loop
breaks (clean exit).  On `Err` it increments `retry_count`, breaks when
`retry_count > max_retries`, otherwise computes the backoff delay and races
the sleep against the shutdown signal; if shutdown wins the loop breaks. -/
def runLoop (outcomes : List ListenOutcome) (retry : Nat) : RunTrace :=
  match outcomes with
  | [] => { attempts := 0, delays := [], reason := StopReason.exhausted }
  | ListenOutcome.ok :: _ =>
      { attempts := 1, delays := [], reason := StopReason.cleanExit }
  | ListenOutcome.err shutdownWins :: rest =>
      let retry' := retry + 1
      if retry' > WORKER_MAX_RETRIES then
        { attempts := 1, delays := [], reason := StopReason.maxRetries }
      else
        let d := reconnectDelay retry'
        if shutdownWins then
          { attempts := 1, delays := [d], reason := StopReason.shutdownStop }
        else
          let t := runLoop rest retry'
          { attempts := 1 + t.attempts, delays := d :: t.delays
            reason := t.reason }

/-- `FcmWorker::run` starts with `retry_count = 0`. -/
def fcmRun (outcomes : List ListenOutcome) : RunTrace := runLoop outcomes 0

/-! ## Credential snapshot and register-or-load
(`src/models/credential.rs` fields used by the worker;
`src/workers/fcm_worker.rs`, `FcmWorker::run_listener`) -/

/-- The registration-material fields of a `Credential` consulted by
`run_listener` (other columns are irrelevant to the branch and its effects). -/
structure Credential where
  id : String
  fcm_token : Option String
  gcm_token : Option String
  android_id : Option Int
  security_token : Option Int
  private_key_base64 : Option String
  auth_secret_base64 : Option String
deriving DecidableEq, Repr

/-- The `FcmRegistration` struct produced by the registering branch:
what `create_new_keys` and `register` return. -/
structure FcmRegistration where
  fcm_token : String
  gcm_token : String
  android_id : Nat
  security_token : Nat
  private_key_b64 : String
  auth_secret_b64 : String
deriving DecidableEq, Repr

/-- `let has_fcm_token = self.credential.fcm_token.is_some()
&& self.credential.private_key_base64.is_some();` — the branch condition of
`run_listener`.  Note it does not consult `auth_secret_base64`. -/
def hasFcmToken (c : Credential) : Bool :=
  c.fcm_token.isSome && c.private_key_base64.isSome

/-- Which path `run_listener` takes. -/
inductive ListenerBranch where
  | loadExisting
  | registerNew
deriving DecidableEq, Repr

def listenerBranch (c : Credential) : ListenerBranch :=
  if hasFcmToken c then ListenerBranch.loadExisting else ListenerBranch.registerNew

/-- Observable effects of `run_listener` up to the point where the listener
starts: either the existing material handed to `run_fcm_client_existing`
(`fcm_token` and the key pair are `unwrap`ped, ids default to 0), or a fresh
registration persisted via `update_credential_registration` with all six
fields.  `panicked` models an `unwrap()` on `None`. -/
inductive ListenerSetup where
  | loaded (fcm_token : String) (gcm_token : Option String)
      (android_id security_token : Nat)
      (private_key auth_secret : String)
  | registered (persisted : FcmRegistration) (snapshot : Credential)
  | panicked
deriving DecidableEq, Repr

/-- `FcmWorker::run_listener`, with the external vendor calls
(`create_new_keys` + `register`) supplied as the `reg` argument.

Load path: `existing_fcm_token.unwrap()`, `existing_gcm_token`,
`existing_android_id.unwrap_or(0) as u64`,
`existing_security_token.unwrap_or(0) as u64`,
`existing_private_key.unwrap()`, `existing_auth_secret.unwrap()` are passed to
`run_fcm_client_existing`.

Register path: `update_credential_registration` persists the six fields and
the in-memory snapshot is updated field by field. -/
def runListenerSetup (c : Credential) (reg : FcmRegistration) : ListenerSetup :=
  if hasFcmToken c then
    match c.fcm_token, c.private_key_base64, c.auth_secret_base64 with
    | some fcm, some pk, some sec =>
        ListenerSetup.loaded fcm c.gcm_token
          ((c.android_id.getD 0).toNat) ((c.security_token.getD 0).toNat)
          pk sec
    | _, _, _ => ListenerSetup.panicked
  else
    ListenerSetup.registered reg
      { c with
        fcm_token := some reg.fcm_token
        gcm_token := some reg.gcm_token
        android_id := some (Int.ofNat reg.android_id)
        security_token := some (Int.ofNat reg.security_token)
        private_key_base64 := some reg.private_key_b64
        auth_secret_base64 := some reg.auth_secret_b64 }

/-- The spec's branch condition, verbatim: fresh registration iff the
credential lacks any of `fcm_token`, `private_key`, `auth_secret`. -/
def specLacksRegistration (c : Credential) : Prop :=
  c.fcm_token = none ∨ c.private_key_base64 = none ∨ c.auth_secret_base64 = none

instance (c : Credential) : Decidable (specLacksRegistration c) := by
  unfold specLacksRegistration
  infer_instance

/-! ## Listener Pool (`src/workers/listener_pool.rs`, `ListenerPool`) -/

/-- The in-memory `WorkerHandle`: credential name plus whether the spawned
task has finished (`JoinHandle::is_finished`). -/
structure PoolHandle where
  credential_name : String
  finished : Bool
deriving DecidableEq, Repr

/-- The `HashMap<String, WorkerHandle>` guarded by the pool's `RwLock`,
as an association list keyed by credential id. -/
abbrev PoolMap : Type := List (String × PoolHandle)

def poolLookup (m : PoolMap) (id : String) : Option PoolHandle :=
  (List.find? (fun e => e.1 = id) m).map (fun e => e.2)

def poolContains (m : PoolMap) (id : String) : Bool :=
  (poolLookup m id).isSome

/-- `HashMap::insert` for a key checked absent. -/
def poolInsert (m : PoolMap) (id : String) (h : PoolHandle) : PoolMap :=
  (id, h) :: m

/-- `HashMap::remove`. -/
def poolRemove (m : PoolMap) (id : String) : PoolMap :=
  List.filter (fun e => e.1 ≠ id) m

/-- Number of handles stored under a given credential id. -/
def countKey (m : PoolMap) (id : String) : Nat :=
  List.length (List.filter (fun e => e.1 = id) m)

/-- Pool state errors (`AppError::WorkerAlreadyRunning`,
`AppError::WorkerNotRunning`). -/
inductive PoolError where
  | workerAlreadyRunning
  | workerNotRunning
deriving DecidableEq, Repr

/-- `ListenerPool::start_worker`: error if a handle exists for the id,
otherwise spawn the worker (a fresh unfinished handle) and store it. -/
def start_worker (m : PoolMap) (id name : String) :
    PoolMap × Except PoolError Unit :=
  if poolContains m id then
    (m, Except.error PoolError.workerAlreadyRunning)
  else
    (poolInsert m id { credential_name := name, finished := false },
      Except.ok ())

/-- The steps `stop_worker` performs after extracting the handle, in program
order. -/
inductive StopEvent where
  | removeHandle
  | signalShutdown
  | awaitTask (timedOut : Bool)
deriving DecidableEq, Repr

/-- `ListenerPool::stop_worker`: under the write lock, `workers.remove(id)`;
if a handle was present, signal its shutdown channel and await the task
racing a 3 s timeout (`timedOut` tells which side wins; either way `Ok` is
returned and the handle stays dropped); otherwise `WorkerNotRunning`. -/
def stop_worker (m : PoolMap) (id : String) (timedOut : Bool) :
    PoolMap × Except PoolError Unit × List StopEvent :=
  let extracted := poolLookup m id
  let m' := poolRemove m id
  match extracted with
  | some _ =>
      (m', Except.ok (),
        [StopEvent.removeHandle, StopEvent.signalShutdown,
          StopEvent.awaitTask timedOut])
  | none => (m, Except.error PoolError.workerNotRunning, [])

/-- `ListenerPool::restart_worker`: `stop_worker` with its result discarded,
then `start_worker`. -/
def restart_worker (m : PoolMap) (id name : String) (timedOut : Bool) :
    PoolMap × Except PoolError Unit :=
  let stopped := stop_worker m id timedOut
  start_worker stopped.1 id name

/-- `ListenerPool::is_running`: handle present and task not finished. -/
def is_running (m : PoolMap) (id : String) : Bool :=
  match poolLookup m id with
  | some h => !h.finished
  | none => false

/-- `ListenerPool::active_count`: handles whose task is not finished. -/
def active_count (m : PoolMap) : Nat :=
  List.length (List.filter (fun e => !e.2.finished) m)

/-! ## Message Log retention (`src/db/repository.rs`,
`Repository::cleanup_old_messages`, `create_message_log`) -/

/-- The columns of a `message_logs` row that the retention query reads. -/
structure LogRow where
  id : String
  credential_id : String
  received_at : Nat
deriving DecidableEq, Repr

/-- `ORDER BY received_at DESC`: newest first. -/
def recvDesc (a b : LogRow) : Prop := b.received_at ≤ a.received_at

instance : DecidableRel recvDesc := fun a b =>
  inferInstanceAs (Decidable (b.received_at ≤ a.received_at))

instance : IsTotal LogRow recvDesc :=
  ⟨fun a b => (Nat.le_total b.received_at a.received_at).elim Or.inl Or.inr⟩

instance : IsTrans LogRow recvDesc :=
  ⟨fun _ _ _ hab hbc => Nat.le_trans hbc hab⟩

/-- The ids selected by
`SELECT id FROM message_logs WHERE credential_id = ? ORDER BY received_at
DESC LIMIT ?`: the `keep_n` most recent rows of the credential. -/
def keepIds (rows : List LogRow) (cred : String) (keepN : Nat) : List String :=
  List.map (fun r => r.id)
    (List.take keepN
      (List.insertionSort recvDesc
        (List.filter (fun r => r.credential_id = cred) rows)))

/-- `Repository::cleanup_old_messages(credential_id, max_count)`:
`DELETE FROM message_logs WHERE credential_id = ? AND id NOT IN (…)` —
a row survives iff it belongs to another credential or its id is among the
`keep_n` most recent ids of this credential. -/
def cleanup_old (rows : List LogRow) (cred : String) (keepN : Nat) :
    List LogRow :=
  List.filter
    (fun r => r.credential_id ≠ cred ∨ r.id ∈ keepIds rows cred keepN) rows

/-- `Repository::create_message_log`: plain `INSERT`. -/
def insert_log (rows : List LogRow) (row : LogRow) : List LogRow :=
  rows ++ [row]

/-- `SELECT COUNT(*) … WHERE credential_id = ?`. -/
def countCred (rows : List LogRow) (cred : String) : Nat :=
  List.length (List.filter (fun r => r.credential_id = cred) rows)

/-- `MAX_MESSAGES_PER_CREDENTIAL` default. -/
def MAX_MESSAGES : Nat := 50

/-- Steps 5–6 of the payload pipeline: `create_message_log` then
`cleanup_old_messages(cred_id, max_messages)`. -/
def insertThenCleanup (rows : List LogRow) (row : LogRow) (keepN : Nat) :
    List LogRow :=
  cleanup_old (insert_log rows row) row.credential_id keepN

/-! ## `fcmMessageId` extraction and the payload pipeline
(`src/models/message.rs`, `MessageLog::extract_fcm_message_id`;
`src/workers/fcm_worker.rs`, the `on_data_message` closure in
`run_fcm_client_existing`) -/

/-- `serde_json::Value`. -/
inductive Json where
  | null
  | bool (b : Bool)
  | num (n : Int)
  | str (s : String)
  | arr (elems : List Json)
  | obj (fields : List (String × Json))

/-- `Value::get(key)`: field lookup, `None` on non-objects. -/
def Json.get : Json → String → Option Json
  | Json.obj fields, key =>
      (List.find? (fun f => f.1 = key) fields).map (fun f => f.2)
  | _, _ => none

/-- `Value::as_str()`. -/
def Json.asStr : Json → Option String
  | Json.str s => some s
  | _ => none

/-- `MessageLog::extract_fcm_message_id(payload)`, taking the result of
`serde_json::from_str::<Value>(payload).ok()` (the external serde parser) as
input: `parsed.and_then(|v| v.get("fcmMessageId").and_then(|id| id.as_str()))`. -/
def extract_fcm_message_id (parsed : Option Json) : Option String :=
  Option.bind parsed (fun v => Option.bind (Json.get v "fcmMessageId") Json.asStr)

/-- The stored `MessageLog` fields the pipeline decides
(`MessageLog::new(cred_id, fcm_message_id, text)`). -/
structure NewMessageLog where
  credential_id : String
  fcm_message_id : Option String
  payload : List Nat
deriving DecidableEq, Repr

/-- What the `tokio::spawn`ed message-handler task does with one payload. -/
inductive PipelineAction where
  | droppedPersistent
  | droppedMemory
  | insertFailed (log : NewMessageLog)
  | delivered (log : NewMessageLog)
deriving DecidableEq, Repr

/-- Trace of one run of the `on_data_message` pipeline. -/
structure PipelineResult where
  dbDupChecks : List String
  action : PipelineAction
  cacheAfter : DedupMap

/-- The `on_data_message` pipeline for payload bytes `text` (already
UTF-8-decoded; we keep the byte list, which is what both the hash and the
stored payload are computed from):
extract `fcmMessageId` from the parse `parsed` of `text`; if present, run the
persistent duplicate check (`dbDup` is its `Result<bool>`; `Ok(true)` drops,
`Err` is logged and processing continues); then the in-memory
`dedup_cache.is_duplicate`; then build the `MessageLog` and insert it
(`insertOk` is whether `create_message_log` succeeds; on failure the task
returns); cleanup and webhook delivery follow. -/
def pipelineStep (cred : String) (text : List Nat) (parsed : Option Json)
    (dbDup : Except Unit Bool) (insertOk : Bool)
    (cache : DedupMap) (ttl now : Nat) : PipelineResult :=
  let fcmId := extract_fcm_message_id parsed
  let checks := match fcmId with
    | some i => [i]
    | none => []
  let dropPersistent := match fcmId, dbDup with
    | some _, Except.ok true => true
    | _, _ => false
  if dropPersistent then
    { dbDupChecks := checks, action := PipelineAction.droppedPersistent
      cacheAfter := cache }
  else
    let memResult := is_duplicate cache ttl text now
    if memResult.1 then
      { dbDupChecks := checks, action := PipelineAction.droppedMemory
        cacheAfter := memResult.2 }
    else
      let log : NewMessageLog :=
        { credential_id := cred, fcm_message_id := fcmId, payload := text }
      if insertOk then
        { dbDupChecks := checks, action := PipelineAction.delivered log
          cacheAfter := memResult.2 }
      else
        { dbDupChecks := checks, action := PipelineAction.insertFailed log
          cacheAfter := memResult.2 }

/-! ## Lemmas about the webhook retry loop -/

theorem sendAux_returned (outcome : Nat → AttemptOutcome)
    (updFails : Nat → Bool) :
    ∀ (fuel a : Nat) (e : String),
      (sendAux outcome updFails a fuel e).returned = Except.ok () := by
  intro fuel
  induction fuel with
  | zero => intro a e; rfl
  | succ fuel ih =>
      intro a e
      unfold sendAux
      cases h : outcome a with
      | httpResp s b =>
          by_cases hs : 200 ≤ s ∧ s < 300
          · simp [hs]
          · simp [hs, ih]
      | transportErr m => simp [ih]

theorem sendAux_attempts_le (outcome : Nat → AttemptOutcome)
    (updFails : Nat → Bool) :
    ∀ (fuel a : Nat) (e : String),
      (sendAux outcome updFails a fuel e).attempts ≤ fuel := by
  intro fuel
  induction fuel with
  | zero => intro a e; exact Nat.le_refl 0
  | succ fuel ih =>
      intro a e
      unfold sendAux
      cases h : outcome a with
      | httpResp s b =>
          by_cases hs : 200 ≤ s ∧ s < 300
          · simp [hs]
          · have := ih (a + 1) ("HTTP " ++ toString s ++ ": " ++ b)
            simp only [hs, if_false]
            omega
      | transportErr m =>
          have := ih (a + 1) m
          simp only
          omega

theorem sendAux_attempts_pos (outcome : Nat → AttemptOutcome)
    (updFails : Nat → Bool) :
    ∀ (fuel a : Nat) (e : String), 0 < fuel →
      0 < (sendAux outcome updFails a fuel e).attempts := by
  intro fuel a e hfuel
  match fuel, hfuel with
  | fuel + 1, _ =>
      unfold sendAux
      cases h : outcome a with
      | httpResp s b =>
          by_cases hs : 200 ≤ s ∧ s < 300
          · simp [hs]
          · simp [hs]
      | transportErr m => simp

theorem sendAux_no_early_success (outcome : Nat → AttemptOutcome)
    (updFails : Nat → Bool) :
    ∀ (fuel a : Nat) (e : String) (k : Nat),
      k + 1 < (sendAux outcome updFails a fuel e).attempts →
      isSuccessOutcome (outcome (a + k)) = false := by
  intro fuel
  induction fuel with
  | zero => intro a e k hk; simp [sendAux] at hk
  | succ fuel ih =>
      intro a e k hk
      rw [sendAux] at hk
      cases h : outcome a with
      | httpResp s b =>
          rw [h] at hk
          by_cases hs : 200 ≤ s ∧ s < 300
          · simp [hs] at hk
          · simp only [hs, if_false] at hk
            cases k with
            | zero => simp [isSuccessOutcome, h, hs]
            | succ k' =>
                have hk' : k' + 1 < (sendAux outcome updFails (a + 1) fuel
                    ("HTTP " ++ toString s ++ ": " ++ b)).attempts := by
                  omega
                have := ih (a + 1) _ k' hk'
                simpa [Nat.add_assoc, Nat.add_comm 1 k'] using this
      | transportErr m =>
          rw [h] at hk
          simp only at hk
          cases k with
          | zero => simp [isSuccessOutcome, h]
          | succ k' =>
              have hk' : k' + 1 < (sendAux outcome updFails (a + 1) fuel
                  m).attempts := by omega
              have := ih (a + 1) _ k' hk'
              simpa [Nat.add_assoc, Nat.add_comm 1 k'] using this

theorem sendAux_stop_at_success (outcome : Nat → AttemptOutcome)
    (updFails : Nat → Bool) :
    ∀ (fuel a : Nat) (e : String) (k : Nat),
      isSuccessOutcome (outcome (a + k)) = true →
      (sendAux outcome updFails a fuel e).attempts ≤ k + 1 := by
  intro fuel
  induction fuel with
  | zero =>
      intro a e k _
      simp [sendAux]
  | succ fuel ih =>
      intro a e k hk
      unfold sendAux
      cases h : outcome a with
      | httpResp s b =>
          by_cases hs : 200 ≤ s ∧ s < 300
          · simp [hs]
          · cases k with
            | zero =>
                exfalso
                rw [Nat.add_zero] at hk
                rw [h] at hk
                simp [isSuccessOutcome, hs] at hk
            | succ k' =>
                have hk' : isSuccessOutcome (outcome ((a + 1) + k')) = true := by
                  simpa [Nat.add_assoc, Nat.add_comm 1 k'] using hk
                have := ih (a + 1) ("HTTP " ++ toString s ++ ": " ++ b) k' hk'
                simp only [hs, if_false]
                omega
      | transportErr m =>
          cases k with
          | zero =>
              exfalso
              rw [Nat.add_zero] at hk
              rw [h] at hk
              simp [isSuccessOutcome] at hk
          | succ k' =>
              have hk' : isSuccessOutcome (outcome ((a + 1) + k')) = true := by
                simpa [Nat.add_assoc, Nat.add_comm 1 k'] using hk
              have := ih (a + 1) m k' hk'
              simp only
              omega

theorem sendAux_sleeps (outcome : Nat → AttemptOutcome)
    (updFails : Nat → Bool) :
    ∀ (fuel a : Nat) (e : String), 1 ≤ a →
      (sendAux outcome updFails a fuel e).sleeps
        = (List.range (sendAux outcome updFails a fuel e).attempts).map
            (fun i => BASE_DELAY_MS * 2 ^ (a - 1 + i)) := by
  intro fuel
  induction fuel with
  | zero => intro a e ha; simp [sendAux]
  | succ fuel ih =>
      intro a e ha
      have hagt : a > 0 := ha
      unfold sendAux
      cases h : outcome a with
      | httpResp s b =>
          by_cases hs : 200 ≤ s ∧ s < 300
          · simp [hs, hagt, List.range_succ]
          · have hrest := ih (a + 1) ("HTTP " ++ toString s ++ ": " ++ b)
              (by omega)
            simp only [hs, if_false, hagt, if_true, if_pos hagt]
            rw [hrest]
            rw [Nat.add_comm 1 _, List.range_succ_eq_map, List.map_cons,
              List.map_map]
            refine congrArg₂ List.cons (by simp) ?_
            refine List.map_congr_left ?_
            intro i _
            have hexp : a - 1 + (i + 1) = a + 1 - 1 + i := by omega
            simp [Function.comp, hexp]
      | transportErr m =>
          have hrest := ih (a + 1) m (by omega)
          simp only [if_pos hagt]
          rw [hrest]
          rw [Nat.add_comm 1 _, List.range_succ_eq_map, List.map_cons,
            List.map_map]
          refine congrArg₂ List.cons (by simp) ?_
          refine List.map_congr_left ?_
          intro i _
          have hexp : a - 1 + (i + 1) = a + 1 - 1 + i := by omega
          simp [Function.comp, hexp]

theorem lastErrAt_shift (outcome : Nat → AttemptOutcome) (a fuel : Nat)
    (e : String) :
    lastErrAt outcome (a + 1) fuel (errorText (outcome a))
      = lastErrAt outcome a (fuel + 1) e := by
  cases fuel with
  | zero => simp [lastErrAt]
  | succ f =>
      have : a + 1 + f = a + (f + 1) := by omega
      simp [lastErrAt, this]

theorem ball_shift (fuel a : Nat) (P : Nat → Prop) (h0 : P a) :
    (∀ k, k < fuel + 1 → P (a + k)) ↔ (∀ k, k < fuel → P (a + 1 + k)) := by
  constructor
  · intro H k hk
    have := H (k + 1) (by omega)
    have heq : a + (k + 1) = a + 1 + k := by omega
    rwa [heq] at this
  · intro H k hk
    cases k with
    | zero => simpa using h0
    | succ k' =>
        have := H k' (by omega)
        have heq : a + 1 + k' = a + (k' + 1) := by omega
        rwa [heq] at this

theorem sendAux_updates (outcome : Nat → AttemptOutcome)
    (updFails : Nat → Bool) :
    ∀ (fuel a : Nat) (e : String),
      (sendAux outcome updFails a fuel e).updates
        = httpUpdates outcome a (sendAux outcome updFails a fuel e).attempts
          ++ (if (∀ k, k < fuel → isSuccessOutcome (outcome (a + k)) = false)
              then [(0, "All 3 retries failed. Last error: "
                        ++ lastErrAt outcome a fuel e)]
              else []) := by
  intro fuel
  induction fuel with
  | zero => intro a e; simp [sendAux, httpUpdates, lastErrAt]
  | succ fuel ih =>
      intro a e
      unfold sendAux
      cases h : outcome a with
      | httpResp s b =>
          by_cases hs : 200 ≤ s ∧ s < 300
          · have hsucc : isSuccessOutcome (outcome a) = true := by
              simp [isSuccessOutcome, h, hs]
            have hcond : ¬ (∀ k, k < fuel + 1 →
                isSuccessOutcome (outcome (a + k)) = false) := by
              intro H
              have := H 0 (by omega)
              rw [Nat.add_zero] at this
              rw [hsucc] at this
              exact absurd this (by simp)
            simp [hs, hcond, httpUpdates, h]
          · have hfail : isSuccessOutcome (outcome a) = false := by
              simp [isSuccessOutcome, h, hs]
            have hrest := ih (a + 1) ("HTTP " ++ toString s ++ ": " ++ b)
            simp only [hs, if_false]
            rw [hrest]
            rw [Nat.add_comm 1 _]
            have herr : ("HTTP " ++ toString s ++ ": " ++ b)
                = errorText (outcome a) := by simp [errorText, h]
            have hiff := ball_shift fuel a
              (fun k => isSuccessOutcome (outcome k) = false) hfail
            by_cases hc : ∀ k, k < fuel →
                isSuccessOutcome (outcome (a + 1 + k)) = false
            · rw [if_pos hc, if_pos (hiff.mpr hc)]
              rw [herr, lastErrAt_shift outcome a fuel e]
              simp [httpUpdates, h]
            · rw [if_neg hc, if_neg (fun H => hc (hiff.mp H))]
              simp [httpUpdates, h]
      | transportErr m =>
          have hfail : isSuccessOutcome (outcome a) = false := by
            simp [isSuccessOutcome, h]
          have hrest := ih (a + 1) m
          simp only
          rw [hrest]
          rw [Nat.add_comm 1 _]
          have herr : m = errorText (outcome a) := by simp [errorText, h]
          have hiff := ball_shift fuel a
            (fun k => isSuccessOutcome (outcome k) = false) hfail
          by_cases hc : ∀ k, k < fuel →
              isSuccessOutcome (outcome (a + 1 + k)) = false
          · rw [if_pos hc, if_pos (hiff.mpr hc)]
            rw [herr, lastErrAt_shift outcome a fuel e]
            simp [httpUpdates, h]
          · rw [if_neg hc, if_neg (fun H => hc (hiff.mp H))]
            simp [httpUpdates, h]

/-! ## Claim C3 -/

/-- C3: every `WebhookClient::send` call performs between 1 and
`1 + MAX_RETRIES = 4` HTTP POST attempts; no attempt strictly before the
last one is a 2xx success and the loop never runs past the first 2xx
success; and before each retry attempt `k` (`k = 1, 2, 3`) it sleeps
`BASE_DELAY_MS * 2^(k-1)` milliseconds, i.e. 1 s, 2 s, 4 s. -/
theorem claim_C3_retry_count_and_backoff (outcome : Nat → AttemptOutcome)
    (updFails : Nat → Bool) :
    1 ≤ (webhookSend outcome updFails).attempts ∧
    (webhookSend outcome updFails).attempts ≤ 1 + MAX_RETRIES ∧
    (∀ k, k + 1 < (webhookSend outcome updFails).attempts →
      isSuccessOutcome (outcome k) = false) ∧
    (∀ k, isSuccessOutcome (outcome k) = true →
      (webhookSend outcome updFails).attempts ≤ k + 1) ∧
    (webhookSend outcome updFails).sleeps
      = (List.range ((webhookSend outcome updFails).attempts - 1)).map
          (fun i => BASE_DELAY_MS * 2 ^ i) := by
  refine ⟨?_, ?_, ?_, ?_, ?_⟩
  · exact sendAux_attempts_pos outcome updFails (MAX_RETRIES + 1) 0 ""
      (by norm_num)
  · show (sendAux outcome updFails 0 (MAX_RETRIES + 1) "").attempts
      ≤ 1 + MAX_RETRIES
    have := sendAux_attempts_le outcome updFails (MAX_RETRIES + 1) 0 ""
    omega
  · intro k hk
    have := sendAux_no_early_success outcome updFails (MAX_RETRIES + 1) 0 "" k hk
    simpa using this
  · intro k hk
    have hk0 : isSuccessOutcome (outcome (0 + k)) = true := by simpa using hk
    exact sendAux_stop_at_success outcome updFails (MAX_RETRIES + 1) 0 "" k hk0
  · cases h : outcome 0 with
    | httpResp s b =>
        by_cases hs : 200 ≤ s ∧ s < 300
        · have hA : (webhookSend outcome updFails).attempts = 1 := by
            rw [webhookSend, sendAux, h]; simp [hs]
          have hS : (webhookSend outcome updFails).sleeps = [] := by
            rw [webhookSend, sendAux, h]; simp [hs]
          rw [hA, hS]
          rfl
        · have hA : (webhookSend outcome updFails).attempts
              = 1 + (sendAux outcome updFails 1 MAX_RETRIES
                  ("HTTP " ++ toString s ++ ": " ++ b)).attempts := by
            rw [webhookSend, sendAux, h]; simp [hs]
          have hS : (webhookSend outcome updFails).sleeps
              = (sendAux outcome updFails 1 MAX_RETRIES
                  ("HTTP " ++ toString s ++ ": " ++ b)).sleeps := by
            rw [webhookSend, sendAux, h]; simp [hs]
          rw [hA, hS]
          have hrest := sendAux_sleeps outcome updFails MAX_RETRIES 1
            ("HTTP " ++ toString s ++ ": " ++ b) (Nat.le_refl 1)
          simpa using hrest
    | transportErr m =>
        have hA : (webhookSend outcome updFails).attempts
            = 1 + (sendAux outcome updFails 1 MAX_RETRIES m).attempts := by
          rw [webhookSend, sendAux, h]
        have hS : (webhookSend outcome updFails).sleeps
            = (sendAux outcome updFails 1 MAX_RETRIES m).sleeps := by
          rw [webhookSend, sendAux, h]
          simp
        rw [hA, hS]
        have hrest := sendAux_sleeps outcome updFails MAX_RETRIES 1 m
          (Nat.le_refl 1)
        simpa using hrest

theorem claim_C3_witness :
    isSuccessOutcome ((fun k => if k = 0 then AttemptOutcome.httpResp 500 "err"
      else AttemptOutcome.httpResp 200 "ok") 1) = true ∧
    (webhookSend (fun k => if k = 0 then AttemptOutcome.httpResp 500 "err"
      else AttemptOutcome.httpResp 200 "ok") (fun _ => false)).attempts ≤ 2 ∧
    (webhookSend (fun k => if k = 0 then AttemptOutcome.httpResp 500 "err"
      else AttemptOutcome.httpResp 200 "ok") (fun _ => false)).sleeps
      = [1000] := by
  refine ⟨by decide, ?_, ?_⟩
  · exact (claim_C3_retry_count_and_backoff
      (fun k => if k = 0 then AttemptOutcome.httpResp 500 "err"
        else AttemptOutcome.httpResp 200 "ok")
      (fun _ => false)).2.2.2.1 1 (by decide)
  · have := (claim_C3_retry_count_and_backoff
      (fun k => if k = 0 then AttemptOutcome.httpResp 500 "err"
        else AttemptOutcome.httpResp 200 "ok")
      (fun _ => false)).2.2.2.2
    rw [this]
    rfl

/-! ## Claim C8 -/

/-- C8: `WebhookClient::send` returns `Ok` for every input — whatever the
attempt outcomes and even when the store updates of the outcome fail, no
error is surfaced to the caller. -/
theorem claim_C8_send_always_ok (outcome : Nat → AttemptOutcome)
    (updFails : Nat → Bool) :
    (webhookSend outcome updFails).returned = Except.ok () :=
  sendAux_returned outcome updFails (MAX_RETRIES + 1) 0 ""

/-! ## Claim C1 -/

/-- C1, counterexample to the claim as stated: with a transport error on the
first attempt and a 2xx on the second, `send` performs 2 attempts but
persists only one outcome — the `(200, "ok")` of the second attempt.  No
`(0, _)` update is written for the transport-error attempt, contradicting
"after each individual attempt … the outcome is persisted … with status 0
recorded for a transport-error attempt". -/
theorem claim_C1_counterexample :
    (webhookSend (fun k => if k = 0 then
        AttemptOutcome.transportErr "connection refused"
      else AttemptOutcome.httpResp 200 "ok") (fun _ => false)).attempts = 2 ∧
    (webhookSend (fun k => if k = 0 then
        AttemptOutcome.transportErr "connection refused"
      else AttemptOutcome.httpResp 200 "ok") (fun _ => false)).updates
      = [(200, "ok")] := by
  exact ⟨rfl, rfl⟩

/-- C1 (amended): after each attempt that yielded an HTTP response (2xx or
non-2xx) the outcome `(status, body)` is persisted via
`update_webhook_outcome`, in order; a transport-error attempt persists
nothing at that point; and only when every attempt fails (non-2xx or
transport error) is a single final update with status 0 and body
`"All 3 retries failed. Last error: …"` written after the loop. -/
theorem claim_C1_amended_outcome_persistence (outcome : Nat → AttemptOutcome)
    (updFails : Nat → Bool) :
    (webhookSend outcome updFails).updates
      = httpUpdates outcome 0 (webhookSend outcome updFails).attempts
        ++ (if (∀ k, k < MAX_RETRIES + 1 → isSuccessOutcome (outcome k) = false)
            then [(0, "All 3 retries failed. Last error: "
                      ++ errorText (outcome MAX_RETRIES))]
            else []) := by
  have h := sendAux_updates outcome updFails (MAX_RETRIES + 1) 0 ""
  simpa [lastErrAt] using h

/-! ## Claim C5 -/

/-- C5: `is_duplicate` returns true, leaving the cache untouched, iff an
entry for the content's hash exists whose age is strictly less than the TTL;
on a miss it inserts `(hash, now)` and returns false; hence for identical
payloads submitted at `t1 < t2` with no other submissions, the second
returns true iff `t2 - t1 < ttl`. -/
theorem claim_C5_dedup_window (cache : DedupMap) (ttl : Nat)
    (content : List Nat) (now t1 t2 : Nat) :
    ((is_duplicate cache ttl content now).1 = true ↔
      ∃ t, dedupLookup cache (hash_content content) = some t ∧ now - t < ttl) ∧
    ((is_duplicate cache ttl content now).1 = true →
      (is_duplicate cache ttl content now).2 = cache) ∧
    ((is_duplicate cache ttl content now).1 = false →
      dedupLookup (is_duplicate cache ttl content now).2
        (hash_content content) = some now) ∧
    ((is_duplicate ([] : DedupMap) ttl content t1).1 = false ∧
      (t1 < t2 →
        ((is_duplicate (is_duplicate ([] : DedupMap) ttl content t1).2
          ttl content t2).1 = true ↔ t2 - t1 < ttl))) := by
  refine ⟨?_, ?_, ?_, ?_, ?_⟩
  · cases hl : dedupLookup cache (hash_content content) with
    | none => simp [is_duplicate, hl]
    | some t =>
        by_cases ht : now - t < ttl
        · simp [is_duplicate, hl, ht]
        · simp [is_duplicate, hl, ht]
  · intro hdup
    cases hl : dedupLookup cache (hash_content content) with
    | none => simp [is_duplicate, hl] at hdup
    | some t =>
        by_cases ht : now - t < ttl
        · simp [is_duplicate, hl, ht]
        · simp [is_duplicate, hl, ht] at hdup
  · intro hmiss
    cases hl : dedupLookup cache (hash_content content) with
    | none =>
        have hstate : (is_duplicate cache ttl content now).2
            = dedupWritePath cache ttl (hash_content content) now := by
          simp [is_duplicate, hl]
        rw [hstate]
        simp [dedupWritePath, dedupInsert, dedupLookup]
    | some t =>
        by_cases ht : now - t < ttl
        · simp [is_duplicate, hl, ht] at hmiss
        · have hstate : (is_duplicate cache ttl content now).2
              = dedupWritePath cache ttl (hash_content content) now := by
            simp [is_duplicate, hl, ht]
          rw [hstate]
          simp [dedupWritePath, dedupInsert, dedupLookup]
  · have hl : dedupLookup ([] : DedupMap) (hash_content content) = none := by
      simp [dedupLookup]
    simp [is_duplicate, hl]
  · intro _
    have hl : dedupLookup ([] : DedupMap) (hash_content content) = none := by
      simp [dedupLookup]
    have hstate : (is_duplicate ([] : DedupMap) ttl content t1).2
        = [(hash_content content, t1)] := by
      simp [is_duplicate, hl, dedupWritePath, dedupLen, dedupInsert]
    rw [hstate]
    have hl2 : dedupLookup [(hash_content content, t1)]
        (hash_content content) = some t1 := by
      simp [dedupLookup]
    by_cases ht : t2 - t1 < ttl
    · simp [is_duplicate, hl2, ht]
    · simp [is_duplicate, hl2, ht]

theorem claim_C5_witness :
    (is_duplicate ([] : DedupMap) 5 [104, 105] 10).1 = false ∧
    (0 < 3 ∧
      ((is_duplicate (is_duplicate ([] : DedupMap) 5 [104, 105] 0).2
        5 [104, 105] 3).1 = true ↔ (3 : Nat) - 0 < 5)) := by
  refine ⟨?_, by decide, ?_⟩
  · exact (claim_C5_dedup_window [] 5 [104, 105] 10 10 3).2.2.2.1
  · exact (claim_C5_dedup_window [] 5 [104, 105] 10 0 3).2.2.2.2
      (by decide)

/-! ## Lemmas about the worker reconnect loop -/

theorem runLoop_attempts_le :
    ∀ (outcomes : List ListenOutcome) (r : Nat),
      (runLoop outcomes r).attempts + min r WORKER_MAX_RETRIES
        ≤ WORKER_MAX_RETRIES + 1 := by
  intro outcomes
  induction outcomes with
  | nil =>
      intro r
      rw [runLoop]
      show 0 + min r WORKER_MAX_RETRIES ≤ WORKER_MAX_RETRIES + 1
      omega
  | cons x rest ih =>
      intro r
      cases x with
      | ok =>
          simp only [runLoop]
          show 1 + min r WORKER_MAX_RETRIES ≤ WORKER_MAX_RETRIES + 1
          omega
      | err sw =>
          simp only [runLoop]
          by_cases hr : r + 1 > WORKER_MAX_RETRIES
          · rw [if_pos hr]
            show 1 + min r WORKER_MAX_RETRIES ≤ WORKER_MAX_RETRIES + 1
            omega
          · rw [if_neg hr]
            cases sw with
            | true =>
                rw [if_pos rfl]
                show 1 + min r WORKER_MAX_RETRIES ≤ WORKER_MAX_RETRIES + 1
                omega
            | false =>
                rw [if_neg (by simp)]
                show 1 + (runLoop rest (r + 1)).attempts
                    + min r WORKER_MAX_RETRIES ≤ WORKER_MAX_RETRIES + 1
                have := ih (r + 1)
                omega

theorem runLoop_delays_ex :
    ∀ (outcomes : List ListenOutcome) (r : Nat),
      ∃ n, (runLoop outcomes r).delays
        = (List.range n).map (fun i => reconnectDelay (r + 1 + i)) := by
  intro outcomes
  induction outcomes with
  | nil => intro r; exact ⟨0, by simp [runLoop]⟩
  | cons x rest ih =>
      intro r
      cases x with
      | ok => exact ⟨0, by simp [runLoop]⟩
      | err sw =>
          by_cases hr : r + 1 > WORKER_MAX_RETRIES
          · refine ⟨0, ?_⟩
            simp only [runLoop]
            rw [if_pos hr]
            simp
          · cases sw with
            | true =>
                refine ⟨1, ?_⟩
                simp only [runLoop]
                rw [if_neg hr, if_pos trivial]
                show [reconnectDelay (r + 1)] = _
                simp [List.range_succ]
            | false =>
                obtain ⟨n, hn⟩ := ih (r + 1)
                refine ⟨n + 1, ?_⟩
                simp only [runLoop]
                rw [if_neg hr, if_neg (by simp)]
                show reconnectDelay (r + 1) :: (runLoop rest (r + 1)).delays
                  = _
                rw [hn, List.range_succ_eq_map, List.map_cons, List.map_map]
                refine congrArg₂ List.cons (by simp) ?_
                refine List.map_congr_left ?_
                intro i _
                have hsh : r + 1 + (i + 1) = r + 1 + 1 + i := by omega
                simp [Function.comp, hsh]

theorem runLoop_delays :
    ∀ (outcomes : List ListenOutcome) (r : Nat),
      (runLoop outcomes r).delays
        = (List.range (runLoop outcomes r).delays.length).map
            (fun i => reconnectDelay (r + 1 + i)) := by
  intro outcomes r
  obtain ⟨n, hn⟩ := runLoop_delays_ex outcomes r
  rw [hn]
  simp

theorem runLoop_stops_on_shutdown :
    ∀ (outcomes : List ListenOutcome) (r i : Nat),
      outcomes.get? i = some (ListenOutcome.err true) →
      (runLoop outcomes r).attempts ≤ i + 1 := by
  intro outcomes
  induction outcomes with
  | nil => intro r i h; simp at h
  | cons x rest ih =>
      intro r i h
      cases i with
      | zero =>
          simp at h
          subst h
          rw [runLoop]
          by_cases hr : r + 1 > WORKER_MAX_RETRIES
          · simp [hr]
          · simp [hr]
      | succ i' =>
          rw [List.get?_cons_succ] at h
          cases x with
          | ok =>
              simp only [runLoop]
              show 1 ≤ i' + 1 + 1
              omega
          | err sw =>
              simp only [runLoop]
              by_cases hr : r + 1 > WORKER_MAX_RETRIES
              · rw [if_pos hr]
                show 1 ≤ i' + 1 + 1
                omega
              · rw [if_neg hr]
                cases sw with
                | true =>
                    rw [if_pos rfl]
                    show 1 ≤ i' + 1 + 1
                    omega
                | false =>
                    rw [if_neg (by simp)]
                    show 1 + (runLoop rest (r + 1)).attempts ≤ i' + 1 + 1
                    have := ih (r + 1) i' h
                    omega

theorem reconnectDelay_le_cap (r : Nat) : reconnectDelay r ≤ 320 := by
  unfold reconnectDelay WORKER_BASE_DELAY_S
  have h1 : min (r - 1) 6 ≤ 6 := Nat.min_le_right _ _
  have h2 : 2 ^ min (r - 1) 6 ≤ 2 ^ 6 := Nat.pow_le_pow_right (by norm_num) h1
  omega

theorem reconnectDelay_mono (r : Nat) :
    reconnectDelay r ≤ reconnectDelay (r + 1) := by
  unfold reconnectDelay
  have h1 : min (r - 1) 6 ≤ min (r + 1 - 1) 6 :=
    min_le_min (by omega) (Nat.le_refl 6)
  have h2 : 2 ^ min (r - 1) 6 ≤ 2 ^ min (r + 1 - 1) 6 :=
    Nat.pow_le_pow_right (by norm_num) h1
  exact Nat.mul_le_mul_left _ h2

/-! ## Claim C6 -/

/-- C6: the worker's run loop performs at most `MAX_RETRIES + 1 = 11`
`run_listener` attempts; the delay raced before the `k`-th reconnect is
`reconnectDelay k = BASE_DELAY * 2^min(k-1, 6)` seconds (base 5 s), which is
capped at 320 s and non-decreasing in the retry count; and if the shutdown
signal wins the race after attempt `i`, no further attempt happens. -/
theorem claim_C6_reconnect_policy (outcomes : List ListenOutcome) :
    (fcmRun outcomes).attempts ≤ WORKER_MAX_RETRIES + 1 ∧
    (fcmRun outcomes).delays
      = (List.range (fcmRun outcomes).delays.length).map
          (fun i => reconnectDelay (i + 1)) ∧
    (∀ r, reconnectDelay r = WORKER_BASE_DELAY_S * 2 ^ min (r - 1) 6 ∧
      reconnectDelay r ≤ 320 ∧ reconnectDelay r ≤ reconnectDelay (r + 1)) ∧
    (∀ i, outcomes.get? i = some (ListenOutcome.err true) →
      (fcmRun outcomes).attempts ≤ i + 1) := by
  refine ⟨?_, ?_, ?_, ?_⟩
  · have := runLoop_attempts_le outcomes 0
    simpa [fcmRun] using this
  · have h := runLoop_delays outcomes 0
    simpa [fcmRun, Nat.add_comm] using h
  · intro r
    exact ⟨rfl, reconnectDelay_le_cap r, reconnectDelay_mono r⟩
  · intro i h
    exact runLoop_stops_on_shutdown outcomes 0 i h

theorem claim_C6_witness :
    (fcmRun (List.replicate 11 (ListenOutcome.err false))).attempts
      = WORKER_MAX_RETRIES + 1 ∧
    (fcmRun (List.replicate 11 (ListenOutcome.err false))).reason
      = StopReason.maxRetries ∧
    (fcmRun (List.replicate 11 (ListenOutcome.err false))).delays
      = [5, 10, 20, 40, 80, 160, 320, 320, 320, 320] ∧
    (fcmRun [ListenOutcome.err true]).attempts ≤ 1 ∧
    reconnectDelay 3 ≤ 320 := by
  refine ⟨by decide, by decide, by decide, ?_, ?_⟩
  · exact (claim_C6_reconnect_policy [ListenOutcome.err true]).2.2.2 0
      (by decide)
  · exact ((claim_C6_reconnect_policy []).2.2.1 3).2.1

/-! ## Lemmas about the listener pool map -/

theorem poolLookup_remove (m : PoolMap) (id : String) :
    poolLookup (poolRemove m id) id = none := by
  unfold poolLookup poolRemove
  rw [Option.map_eq_none', List.find?_eq_none]
  intro e he
  have := List.of_mem_filter he
  simpa using this

theorem poolContains_false_countKey (m : PoolMap) (id : String)
    (h : poolContains m id = false) : countKey m id = 0 := by
  unfold countKey
  rw [List.length_eq_zero, List.filter_eq_nil_iff]
  intro e he
  unfold poolContains poolLookup at h
  cases hfind : List.find? (fun e => decide (e.1 = id)) m with
  | some x =>
      rw [hfind] at h
      simp at h
  | none => exact List.find?_eq_none.mp hfind e he

/-! ## Claim C7 -/

/-- C7: `start_worker` errors with `WorkerAlreadyRunning` iff a handle for
the id is present, and otherwise stores exactly one fresh handle;
`stop_worker` errors with `WorkerNotRunning` iff no handle is present, and
otherwise removes it and returns `Ok`; `restart_worker` always succeeds,
swallowing `WorkerNotRunning` from the stop phase. -/
theorem claim_C7_pool_lifecycle (m : PoolMap) (id name : String)
    (timedOut : Bool) :
    ((start_worker m id name).2
        = Except.error PoolError.workerAlreadyRunning ↔
      poolContains m id = true) ∧
    (poolContains m id = false →
      (start_worker m id name).2 = Except.ok () ∧
      poolLookup (start_worker m id name).1 id
        = some { credential_name := name, finished := false } ∧
      countKey (start_worker m id name).1 id = 1) ∧
    ((stop_worker m id timedOut).2.1
        = Except.error PoolError.workerNotRunning ↔
      poolContains m id = false) ∧
    ((stop_worker m id timedOut).2.1 = Except.ok () ↔
      poolContains m id = true) ∧
    (restart_worker m id name timedOut).2 = Except.ok () := by
  refine ⟨?_, ?_, ?_, ?_, ?_⟩
  · by_cases hc : poolContains m id
    · simp [start_worker, hc]
    · simp [start_worker, hc]
  · intro hc
    refine ⟨by simp [start_worker, hc], ?_, ?_⟩
    · simp [start_worker, hc, poolInsert, poolLookup]
    · have h0 := poolContains_false_countKey m id hc
      unfold countKey at h0 ⊢
      simp [start_worker, hc, poolInsert, h0]
  · unfold stop_worker poolContains
    cases hl : poolLookup m id with
    | none => simp
    | some h => simp
  · unfold stop_worker poolContains
    cases hl : poolLookup m id with
    | none => simp
    | some h => simp
  · unfold restart_worker
    have hpost : poolContains (stop_worker m id timedOut).1 id = false := by
      unfold stop_worker
      cases hl : poolLookup m id with
      | none =>
          simp only
          unfold poolContains
          simp [hl]
      | some h =>
          simp only
          unfold poolContains
          simp [poolLookup_remove]
    simp [start_worker, hpost]

theorem claim_C7_witness :
    poolContains ([] : PoolMap) "c1" = false ∧
    (start_worker ([] : PoolMap) "c1" "tenant A").2 = Except.ok () ∧
    countKey (start_worker ([] : PoolMap) "c1" "tenant A").1 "c1" = 1 := by
  refine ⟨by rfl, ?_, ?_⟩
  · exact ((claim_C7_pool_lifecycle [] "c1" "tenant A" false).2.1 rfl).1
  · exact ((claim_C7_pool_lifecycle [] "c1" "tenant A" false).2.1 rfl).2.2

/-! ## Claim C9 -/

/-- C9: `stop_worker` removes the handle from the map before signalling
shutdown and before awaiting the task; so whenever it returns `Ok` —
including the 3-second-timeout path where the task is still executing — the
id no longer appears in the map, `is_running` is false, and the resulting
map (hence `active_count`) is independent of whether the await timed out. -/
theorem claim_C9_stop_removes_handle_first (m : PoolMap) (id : String)
    (timedOut : Bool)
    (hok : (stop_worker m id timedOut).2.1 = Except.ok ()) :
    (stop_worker m id timedOut).2.2
      = [StopEvent.removeHandle, StopEvent.signalShutdown,
          StopEvent.awaitTask timedOut] ∧
    poolLookup (stop_worker m id timedOut).1 id = none ∧
    is_running (stop_worker m id timedOut).1 id = false ∧
    (∀ e ∈ (stop_worker m id timedOut).1, e.1 ≠ id) ∧
    (stop_worker m id timedOut).1 = (stop_worker m id (!timedOut)).1 ∧
    active_count (stop_worker m id timedOut).1
      = active_count (poolRemove m id) := by
  cases hl : poolLookup m id with
  | none =>
      exfalso
      unfold stop_worker at hok
      rw [hl] at hok
      simp at hok
  | some h =>
      have hmap : (stop_worker m id timedOut).1 = poolRemove m id := by
        unfold stop_worker
        rw [hl]
      have hmap' : (stop_worker m id (!timedOut)).1 = poolRemove m id := by
        unfold stop_worker
        rw [hl]
      refine ⟨?_, ?_, ?_, ?_, ?_, ?_⟩
      · unfold stop_worker
        rw [hl]
      · rw [hmap]
        exact poolLookup_remove m id
      · rw [hmap]
        unfold is_running
        rw [poolLookup_remove m id]
      · intro e he
        rw [hmap] at he
        have := List.of_mem_filter he
        simpa using this
      · rw [hmap, hmap']
      · rw [hmap]

theorem claim_C9_witness :
    (stop_worker [("c1", { credential_name := "tenant A", finished := false })]
        "c1" true).2.1 = Except.ok () ∧
    is_running (stop_worker
        [("c1", { credential_name := "tenant A", finished := false })]
        "c1" true).1 "c1" = false := by
  refine ⟨by rfl, ?_⟩
  · exact (claim_C9_stop_removes_handle_first
      [("c1", { credential_name := "tenant A", finished := false })]
      "c1" true rfl).2.2.1

/-! ## Claim C2 -/

/-- C2, counterexample to the claim as stated: a credential holding
`fcm_token` and `private_key` but lacking `auth_secret` does lack one of the
three fields the claim names, yet `run_listener` takes the load-existing
path — the branch condition `has_fcm_token` never consults `auth_secret`. -/
theorem claim_C2_counterexample :
    specLacksRegistration
      { id := "c1", fcm_token := some "t", gcm_token := none,
        android_id := none, security_token := none,
        private_key_base64 := some "pk", auth_secret_base64 := none } ∧
    listenerBranch
      { id := "c1", fcm_token := some "t", gcm_token := none,
        android_id := none, security_token := none,
        private_key_base64 := some "pk", auth_secret_base64 := none }
      = ListenerBranch.loadExisting := by
  exact ⟨Or.inr (Or.inr rfl), rfl⟩

/-- C2 (amended): the Worker performs fresh registration iff the credential
lacks `fcm_token` or lacks `private_key` (`auth_secret` is not consulted by
the branch condition); in the registration branch all six fields of the
fresh registration are persisted and the in-memory snapshot is updated with
them; when all three of `fcm_token`, `private_key`, `auth_secret` are
present the stored material is loaded and the cached registration replayed
without re-registering. -/
theorem claim_C2_amended_register_or_load (c : Credential)
    (reg : FcmRegistration) :
    (listenerBranch c = ListenerBranch.registerNew ↔
      (c.fcm_token = none ∨ c.private_key_base64 = none)) ∧
    (listenerBranch c = ListenerBranch.registerNew →
      ∃ snap, runListenerSetup c reg = ListenerSetup.registered reg snap ∧
        snap.id = c.id ∧
        snap.fcm_token = some reg.fcm_token ∧
        snap.gcm_token = some reg.gcm_token ∧
        snap.android_id = some (Int.ofNat reg.android_id) ∧
        snap.security_token = some (Int.ofNat reg.security_token) ∧
        snap.private_key_base64 = some reg.private_key_b64 ∧
        snap.auth_secret_base64 = some reg.auth_secret_b64) ∧
    (∀ fcm pk sec, c.fcm_token = some fcm →
      c.private_key_base64 = some pk → c.auth_secret_base64 = some sec →
      runListenerSetup c reg = ListenerSetup.loaded fcm c.gcm_token
        ((c.android_id.getD 0).toNat) ((c.security_token.getD 0).toNat)
        pk sec) := by
  refine ⟨?_, ?_, ?_⟩
  · cases hf : c.fcm_token with
    | none => simp [listenerBranch, hasFcmToken, hf]
    | some fcm =>
        cases hp : c.private_key_base64 with
        | none => simp [listenerBranch, hasFcmToken, hf, hp]
        | some pk => simp [listenerBranch, hasFcmToken, hf, hp]
  · intro hbr
    have hnot : hasFcmToken c = false := by
      by_cases hh : hasFcmToken c
      · exfalso
        unfold listenerBranch at hbr
        rw [if_pos hh] at hbr
        exact ListenerBranch.noConfusion hbr
      · simpa using hh
    refine ⟨{ c with
        fcm_token := some reg.fcm_token
        gcm_token := some reg.gcm_token
        android_id := some (Int.ofNat reg.android_id)
        security_token := some (Int.ofNat reg.security_token)
        private_key_base64 := some reg.private_key_b64
        auth_secret_base64 := some reg.auth_secret_b64 },
      ?_, rfl, rfl, rfl, rfl, rfl, rfl, rfl⟩
    unfold runListenerSetup
    rw [if_neg (by simp [hnot])]
  · intro fcm pk sec hf hp hs
    have hh : hasFcmToken c = true := by
      simp [hasFcmToken, hf, hp]
    unfold runListenerSetup
    rw [if_pos (by simp [hh])]
    rw [hf, hp, hs]

theorem claim_C2_witness :
    (∃ snap, runListenerSetup
        { id := "c1", fcm_token := none, gcm_token := none,
          android_id := none, security_token := none,
          private_key_base64 := none, auth_secret_base64 := none }
        { fcm_token := "ft", gcm_token := "gt", android_id := 7,
          security_token := 9, private_key_b64 := "pk",
          auth_secret_b64 := "as" }
      = ListenerSetup.registered
        { fcm_token := "ft", gcm_token := "gt", android_id := 7,
          security_token := 9, private_key_b64 := "pk",
          auth_secret_b64 := "as" } snap ∧
      snap.id = "c1" ∧
      snap.fcm_token = some "ft" ∧
      snap.gcm_token = some "gt" ∧
      snap.android_id = some (Int.ofNat 7) ∧
      snap.security_token = some (Int.ofNat 9) ∧
      snap.private_key_base64 = some "pk" ∧
      snap.auth_secret_base64 = some "as") ∧
    runListenerSetup
      { id := "c2", fcm_token := some "t", gcm_token := none,
        android_id := none, security_token := none,
        private_key_base64 := some "pk", auth_secret_base64 := some "as" }
      { fcm_token := "ft", gcm_token := "gt", android_id := 7,
        security_token := 9, private_key_b64 := "pk",
        auth_secret_b64 := "as" }
      = ListenerSetup.loaded "t" none 0 0 "pk" "as" := by
  constructor
  · exact (claim_C2_amended_register_or_load
      { id := "c1", fcm_token := none, gcm_token := none,
        android_id := none, security_token := none,
        private_key_base64 := none, auth_secret_base64 := none }
      { fcm_token := "ft", gcm_token := "gt", android_id := 7,
        security_token := 9, private_key_b64 := "pk",
        auth_secret_b64 := "as" }).2.1 rfl
  · exact (claim_C2_amended_register_or_load
      { id := "c2", fcm_token := some "t", gcm_token := none,
        android_id := none, security_token := none,
        private_key_base64 := some "pk", auth_secret_base64 := some "as" }
      { fcm_token := "ft", gcm_token := "gt", android_id := 7,
        security_token := 9, private_key_b64 := "pk",
        auth_secret_b64 := "as" }).2.2 "t" "pk" "as" rfl rfl rfl

/-! ## Lemmas for message retention -/

theorem nodup_subset_length_le {α : Type} [DecidableEq α] (l l' : List α)
    (hnd : l.Nodup) (hsub : l ⊆ l') : l.length ≤ l'.length := by
  have h1 : l.toFinset.card = l.length := List.toFinset_card_of_nodup hnd
  have h2 : l.toFinset ⊆ l'.toFinset := by
    intro x hx
    exact List.mem_toFinset.mpr (hsub (List.mem_toFinset.mp hx))
  have h3 : l.toFinset.card ≤ l'.toFinset.card := Finset.card_le_card h2
  have h4 : l'.toFinset.card ≤ l'.length := List.toFinset_card_le l'
  omega

theorem keepIds_length_le (rows : List LogRow) (cred : String) (keepN : Nat) :
    (keepIds rows cred keepN).length ≤ keepN := by
  unfold keepIds
  rw [List.length_map]
  exact List.length_take_le _ _

theorem cleanup_old_sublist (rows : List LogRow) (cred : String)
    (keepN : Nat) : (cleanup_old rows cred keepN).Sublist rows :=
  List.filter_sublist rows

theorem countCred_cleanup_le (rows : List LogRow) (cred : String)
    (keepN : Nat) (hnd : (List.map (fun r => r.id) rows).Nodup) :
    countCred (cleanup_old rows cred keepN) cred ≤ keepN := by
  unfold countCred
  have hsub2 : (List.filter (fun r => r.credential_id = cred)
      (cleanup_old rows cred keepN)).Sublist rows :=
    (List.filter_sublist _).trans (cleanup_old_sublist rows cred keepN)
  have hmapnd : (List.map (fun r => r.id)
      (List.filter (fun r => r.credential_id = cred)
        (cleanup_old rows cred keepN))).Nodup :=
    hnd.sublist (hsub2.map (fun r => r.id))
  have hss : (List.map (fun r => r.id)
      (List.filter (fun r => r.credential_id = cred)
        (cleanup_old rows cred keepN))) ⊆ keepIds rows cred keepN := by
    intro x hx
    rcases List.mem_map.mp hx with ⟨r, hr, rfl⟩
    have hr1 := List.mem_filter.mp hr
    have hcred : r.credential_id = cred := by
      have := hr1.2
      simpa using this
    have hr2 := List.mem_filter.mp hr1.1
    have hp : r.credential_id ≠ cred ∨ r.id ∈ keepIds rows cred keepN := by
      have := hr2.2
      simpa using this
    rcases hp with hne | hin
    · exact absurd hcred hne
    · exact hin
  have hlen := nodup_subset_length_le _ _ hmapnd hss
  rw [List.length_map] at hlen
  exact hlen.trans (keepIds_length_le rows cred keepN)

/-! ## Claim C4 -/

/-- C4: `cleanup_old(credential_id, keep_n)` keeps exactly the rows that
either belong to another credential or whose id is among the `keep_n` most
recent ids of this credential (`keepIds`, the `take keep_n` of the rows of
the credential sorted newest-first); rows of other credentials are
untouched; and, when row ids are unique, at most `keep_n` rows of the
credential remain — in particular, after the pipeline runs insert followed
by `cleanup_old(cred_id, keepN)`, the credential's count is at most
`keepN`. -/
theorem claim_C4_retention_bound (rows : List LogRow) (cred : String)
    (keepN : Nat) (row : LogRow) :
    (∀ r, r ∈ cleanup_old rows cred keepN ↔
      (r ∈ rows ∧ (r.credential_id ≠ cred ∨ r.id ∈ keepIds rows cred keepN))) ∧
    ((List.insertionSort recvDesc
        (List.filter (fun r => r.credential_id = cred) rows)).Sorted recvDesc) ∧
    ((List.insertionSort recvDesc
        (List.filter (fun r => r.credential_id = cred) rows)).Perm
      (List.filter (fun r => r.credential_id = cred) rows)) ∧
    (List.filter (fun r => r.credential_id ≠ cred)
        (cleanup_old rows cred keepN)
      = List.filter (fun r => r.credential_id ≠ cred) rows) ∧
    ((List.map (fun r => r.id) rows).Nodup →
      countCred (cleanup_old rows cred keepN) cred ≤ keepN) ∧
    ((List.map (fun r => r.id) (insert_log rows row)).Nodup →
      countCred (insertThenCleanup rows row keepN) row.credential_id ≤ keepN) := by
  refine ⟨?_, ?_, ?_, ?_, ?_, ?_⟩
  · intro r
    unfold cleanup_old
    rw [List.mem_filter]
    simp
  · exact List.sorted_insertionSort recvDesc _
  · exact List.perm_insertionSort recvDesc _
  · unfold cleanup_old
    rw [List.filter_filter]
    refine List.filter_congr ?_
    intro r _
    by_cases hc : r.credential_id = cred
    · simp [hc]
    · simp [hc]
  · exact countCred_cleanup_le rows cred keepN
  · intro hnd
    exact countCred_cleanup_le (insert_log rows row) row.credential_id keepN hnd

theorem claim_C4_witness :
    ((List.map (fun r => r.id)
        (insert_log
          [{ id := "a", credential_id := "c", received_at := 1 },
           { id := "b", credential_id := "c", received_at := 2 },
           { id := "d", credential_id := "other", received_at := 9 }]
          { id := "e", credential_id := "c", received_at := 3 })).Nodup) ∧
    countCred
      (insertThenCleanup
        [{ id := "a", credential_id := "c", received_at := 1 },
         { id := "b", credential_id := "c", received_at := 2 },
         { id := "d", credential_id := "other", received_at := 9 }]
        { id := "e", credential_id := "c", received_at := 3 } 2) "c" ≤ 2 := by
  refine ⟨by decide, ?_⟩
  · exact (claim_C4_retention_bound
      [{ id := "a", credential_id := "c", received_at := 1 },
       { id := "b", credential_id := "c", received_at := 2 },
       { id := "d", credential_id := "other", received_at := 9 }]
      "c" 2
      { id := "e", credential_id := "c", received_at := 3 }).2.2.2.2.2
      (by decide)

/-! ## Claim C10 -/

/-- C10: when the payload is not valid JSON, or its top-level `fcmMessageId`
is absent or not a JSON string, `extract_fcm_message_id` returns `None`;
for such payloads the pipeline performs no persistent `fcm_message_id`
duplicate check, any stored `MessageLog` has `fcm_message_id = null`, and
the drop decision is exactly the in-memory TTL cache's verdict. -/
theorem claim_C10_missing_fcm_id (parsed : Option Json) (cred : String)
    (text : List Nat) (dbDup : Except Unit Bool) (insertOk : Bool)
    (cache : DedupMap) (ttl now : Nat)
    (hnone : extract_fcm_message_id parsed = none) :
    ((parsed = none ∨ ∃ v, parsed = some v ∧
        (Json.get v "fcmMessageId" = none ∨
          ∃ j, Json.get v "fcmMessageId" = some j ∧ Json.asStr j = none)) ↔
      extract_fcm_message_id parsed = none) ∧
    (pipelineStep cred text parsed dbDup insertOk cache ttl now).dbDupChecks
      = [] ∧
    ((pipelineStep cred text parsed dbDup insertOk cache ttl now).action
        = PipelineAction.droppedMemory ↔
      (is_duplicate cache ttl text now).1 = true) ∧
    (∀ log,
      ((pipelineStep cred text parsed dbDup insertOk cache ttl now).action
          = PipelineAction.delivered log ∨
        (pipelineStep cred text parsed dbDup insertOk cache ttl now).action
          = PipelineAction.insertFailed log) →
      log.fcm_message_id = none) := by
  have hpipe : pipelineStep cred text parsed dbDup insertOk cache ttl now
      = (if (is_duplicate cache ttl text now).1 then
          { dbDupChecks := [], action := PipelineAction.droppedMemory,
            cacheAfter := (is_duplicate cache ttl text now).2 }
        else if insertOk then
          { dbDupChecks := [],
            action := PipelineAction.delivered
              { credential_id := cred, fcm_message_id := none,
                payload := text },
            cacheAfter := (is_duplicate cache ttl text now).2 }
        else
          { dbDupChecks := [],
            action := PipelineAction.insertFailed
              { credential_id := cred, fcm_message_id := none,
                payload := text },
            cacheAfter := (is_duplicate cache ttl text now).2 }) := by
    unfold pipelineStep
    rw [hnone]
    cases hm : (is_duplicate cache ttl text now).1 with
    | true =>
        cases dbDup with
        | ok b => cases b <;> simp [hm]
        | error e => simp [hm]
    | false =>
        cases dbDup with
        | ok b =>
            cases b <;> cases insertOk <;> simp [hm]
        | error e => cases insertOk <;> simp [hm]
  refine ⟨?_, ?_, ?_, ?_⟩
  · constructor
    · intro hcase
      rcases hcase with hno | ⟨v, hv, hfield⟩
      · rw [hno]; rfl
      · rw [hv]
        unfold extract_fcm_message_id
        rcases hfield with hg | ⟨j, hj, hs⟩
        · simp [hg]
        · simp [hj, hs]
    · intro hn
      cases hp : parsed with
      | none => exact Or.inl rfl
      | some v =>
          refine Or.inr ⟨v, rfl, ?_⟩
          rw [hp] at hn
          unfold extract_fcm_message_id at hn
          have hn' : Option.bind (Json.get v "fcmMessageId") Json.asStr
              = none := hn
          cases hg : Json.get v "fcmMessageId" with
          | none => exact Or.inl rfl
          | some j =>
              refine Or.inr ⟨j, rfl, ?_⟩
              rw [hg] at hn'
              exact hn'
  · rw [hpipe]
    cases hm : (is_duplicate cache ttl text now).1 with
    | true => simp
    | false => cases insertOk <;> simp
  · rw [hpipe]
    cases hm : (is_duplicate cache ttl text now).1 with
    | true => simp
    | false => cases insertOk <;> simp
  · intro log hlog
    rw [hpipe] at hlog
    cases hm : (is_duplicate cache ttl text now).1 with
    | true =>
        rw [hm] at hlog
        simp at hlog
    | false =>
        rw [hm] at hlog
        cases insertOk with
        | true =>
            simp at hlog
            rw [← hlog]
        | false =>
            simp at hlog
            rw [← hlog]

theorem claim_C10_witness :
    extract_fcm_message_id (none : Option Json) = none ∧
    (pipelineStep "c" [1, 2] none (Except.ok false) true [] 5 0).dbDupChecks
      = [] ∧
    (∀ log,
      ((pipelineStep "c" [1, 2] none (Except.ok false) true [] 5 0).action
          = PipelineAction.delivered log ∨
        (pipelineStep "c" [1, 2] none (Except.ok false) true [] 5 0).action
          = PipelineAction.insertFailed log) →
      log.fcm_message_id = none) := by
  refine ⟨rfl, ?_, ?_⟩
  · exact (claim_C10_missing_fcm_id none "c" [1, 2] (Except.ok false) true
      [] 5 0 rfl).2.1
  · exact (claim_C10_missing_fcm_id none "c" [1, 2] (Except.ok false) true
      [] 5 0 rfl).2.2.2

end FcmWorkerSpec
